import Mathlib

/-!
Shallow embedding of the resilience core of the task-management service:
the retry-with-backoff policy (`src/infrastructure/dual/retry.py`), the
circuit breaker (`src/infrastructure/dual/circuit_breaker.py`), the health
probes and the dual dispatcher
(`src/infrastructure/dual/repository/tarea_repository.py`).

Stateful Python objects become explicit state passing; wall-clock instants
(`time.monotonic()`) become rational numbers supplied as explicit `now`
arguments; exceptions become explicit outcome values.
-/

set_option autoImplicit false

/-! ### Retry with exponential backoff (`retry.py`)

The Python `retry_with_backoff(func, max_retries, base_delay)` loops
`for attempt in range(1, max_retries + 2)`, calling `func()` once per
iteration.  A call that returns normally ends the run with its value;
an exception in `retryable_exceptions` is remembered and, when
`attempt <= max_retries`, followed by a sleep of
`base_delay * 2 ** (attempt - 1)` before the next iteration; any other
exception propagates at once.  When the loop ends, the most recent
retryable exception is re-raised (it is always the final attempt's one,
since only a retryable failure lets the loop reach its next iteration).

The behaviour of `func` is modelled as a map from the 1-indexed attempt
number to the outcome of that call. -/

/-- Outcome of one invocation of the wrapped nullary operation:
a returned value, a retryable exception, or a non-retryable exception. -/
inductive Outcome (ε α : Type) where
  | success (a : α)
  | retryable (e : ε)
  | fatal (e : ε)
deriving DecidableEq

/-- Result of a whole retry run: the returned value or the raised error. -/
inductive RetryResult (ε α : Type) where
  | ok (a : α)
  | err (e : ε)
deriving DecidableEq

/-- Observable trace of one run of `retry_with_backoff`: its result, the
number of times the operation was invoked, and the list of sleep durations
(seconds), in order. -/
structure RetryRun (ε α : Type) where
  result : RetryResult ε α
  calls : Nat
  sleeps : List ℚ
deriving DecidableEq

/-- One iteration of the `for attempt in range(1, max_retries + 2)` loop and
its continuation.  `further` counts the loop iterations still to come after
this one; at top level `attempt = 1` and `further = max_retries`. -/
def retry_attempts {ε α : Type} (f : Nat → Outcome ε α) (max_retries : Nat)
    (base_delay : ℚ) (attempt : Nat) (further : Nat) : RetryRun ε α :=
  match f attempt with
  | .success a => ⟨.ok a, 1, []⟩
  | .fatal e => ⟨.err e, 1, []⟩
  | .retryable e =>
    match further with
    | 0 => ⟨.err e, 1,
        if attempt ≤ max_retries then [base_delay * 2 ^ (attempt - 1)] else []⟩
    | f' + 1 =>
      let sl := if attempt ≤ max_retries then [base_delay * 2 ^ (attempt - 1)] else []
      let rest := retry_attempts f max_retries base_delay (attempt + 1) f'
      ⟨rest.result, rest.calls + 1, sl ++ rest.sleeps⟩

/-- `retry_with_backoff` from `retry.py`: attempts `1 .. max_retries + 1`. -/
def retry_with_backoff {ε α : Type} (f : Nat → Outcome ε α) (max_retries : Nat)
    (base_delay : ℚ) : RetryRun ε α :=
  retry_attempts f max_retries base_delay 1 max_retries

/-! ### Circuit breaker (`circuit_breaker.py`)

`CircuitBreaker` holds `_state`, `_failure_count` and `_last_failure_time`
behind a lock; here the tuple is an immutable record and every mutation
returns the updated record.  `time.monotonic()` readings are rationals passed
in as `now`. -/

/-- The three breaker states. -/
inductive CBState where
  | CLOSED
  | OPEN
  | HALF_OPEN
deriving DecidableEq

/-- The breaker's configuration and mutable tuple.  `stateRaw` is the stored
`_state` field, before the lazy `OPEN → HALF_OPEN` re-evaluation that the
`state` property performs. -/
structure CircuitBreaker where
  failureThreshold : Nat
  recoveryTimeout : ℚ
  stateRaw : CBState
  failureCount : Nat
  lastFailureTime : Option ℚ
deriving DecidableEq

/-- `CircuitBreaker.__init__`: starts `CLOSED` with a zero counter. -/
def CircuitBreaker.make (failure_threshold : Nat) (recovery_timeout : ℚ) :
    CircuitBreaker :=
  ⟨failure_threshold, recovery_timeout, .CLOSED, 0, none⟩

/-- The `state` property: lazily moves `OPEN → HALF_OPEN` once the recovery
timeout has elapsed since the last failure, and returns the current state. -/
def CircuitBreaker.state (cb : CircuitBreaker) (now : ℚ) :
    CBState × CircuitBreaker :=
  match cb.stateRaw, cb.lastFailureTime with
  | .OPEN, some t =>
    if now - t ≥ cb.recoveryTimeout then
      (.HALF_OPEN, { cb with stateRaw := .HALF_OPEN })
    else (.OPEN, cb)
  | s, _ => (s, cb)

/-- `allow_request`: evaluates `state` (with its possible lazy transition) and
admits the request unless the result is `OPEN`. -/
def CircuitBreaker.allow_request (cb : CircuitBreaker) (now : ℚ) :
    Bool × CircuitBreaker :=
  match cb.state now with
  | (.CLOSED, cb') => (true, cb')
  | (.HALF_OPEN, cb') => (true, cb')
  | (.OPEN, cb') => (false, cb')

/-- `record_success`: closes the circuit and clears the failure tuple. -/
def CircuitBreaker.record_success (cb : CircuitBreaker) : CircuitBreaker :=
  { cb with stateRaw := .CLOSED, failureCount := 0, lastFailureTime := none }

/-- `record_failure`: bumps the counter, stamps the failure time, and moves to
`OPEN` from `HALF_OPEN` unconditionally or from anywhere once the counter
reaches the threshold. -/
def CircuitBreaker.record_failure (cb : CircuitBreaker) (now : ℚ) :
    CircuitBreaker :=
  let fc := cb.failureCount + 1
  let base := { cb with failureCount := fc, lastFailureTime := some now }
  if cb.stateRaw = .HALF_OPEN then { base with stateRaw := .OPEN }
  else if cb.failureThreshold ≤ fc then { base with stateRaw := .OPEN }
  else base

/-- `reset`: back to the initial tuple. -/
def CircuitBreaker.reset (cb : CircuitBreaker) : CircuitBreaker :=
  { cb with stateRaw := .CLOSED, failureCount := 0, lastFailureTime := none }

/-- A consecutive sequence of `record_failure` calls at the given instants. -/
def applyFailures (cb : CircuitBreaker) : List ℚ → CircuitBreaker
  | [] => cb
  | t :: ts => applyFailures (cb.record_failure t) ts

/-! ### Reachable breaker states (for the claimed `CLOSED` invariant) -/

/-- The operations a caller can perform on a breaker, with the monotonic
instant at which each time-sensitive one runs. -/
inductive CBOp where
  | recordSuccess
  | recordFailure (now : ℚ)
  | observeState (now : ℚ)
  | allowRequest (now : ℚ)
  | reset
deriving DecidableEq

/-- Effect of one operation on the breaker tuple. -/
def CBOp.apply (cb : CircuitBreaker) : CBOp → CircuitBreaker
  | .recordSuccess => cb.record_success
  | .recordFailure t => cb.record_failure t
  | .observeState t => (cb.state t).2
  | .allowRequest t => (cb.allow_request t).2
  | .reset => cb.reset

/-- A sequence of operations, applied left to right. -/
def runOps (cb : CircuitBreaker) : List CBOp → CircuitBreaker
  | [] => cb
  | op :: ops => runOps (CBOp.apply cb op) ops

/-! ### Health probes (`_ping_sql`, `_ping_mongo`)

The probes' interaction with the outside world is reduced to one oracle per
store: whether a minimal connection round trip to that store would succeed
right now.  A probe reports whether it returned `True` and whether it
actually attempted such a round trip.  Python string tests (`startswith`,
`in`, falsiness of the empty string) are embedded over the character list of
the DSN. -/

/-- `hay.startswith(pat)` over character lists. -/
def startsWithList {α : Type} [DecidableEq α] : List α → List α → Bool
  | _, [] => true
  | [], _ :: _ => false
  | a :: as, b :: bs => decide (a = b) && startsWithList as bs

/-- `pat in hay` over character lists. -/
def containsList {α : Type} [DecidableEq α] : List α → List α → Bool
  | [], pat => startsWithList [] pat
  | a :: as, pat => startsWithList (a :: as) pat || containsList as pat

/-- What a probe did: the boolean it returned, and whether it attempted a
real round trip to its store. -/
structure ProbeResult where
  ok : Bool
  attempted : Bool
deriving DecidableEq

/-- `_ping_sql`: `True` without any check when the DSN is unset, empty, or a
`sqlite` DSN; a real connection attempt only for DSNs containing
`postgres`; `True` without any check for any other engine. -/
def ping_sql (sql_dsn : Option String) (sql_conn : Bool) : ProbeResult :=
  match sql_dsn with
  | none => ⟨true, false⟩
  | some dsn =>
    if dsn.data.isEmpty then ⟨true, false⟩
    else if startsWithList dsn.data "sqlite".data then ⟨true, false⟩
    else if containsList dsn.data "postgres".data then
      if sql_conn then ⟨true, true⟩ else ⟨false, true⟩
    else ⟨true, false⟩

/-- `_ping_mongo`: always attempts the `ping` admin command; `True` exactly
when it succeeds. -/
def ping_mongo (mongo_conn : Bool) : ProbeResult :=
  if mongo_conn then ⟨true, true⟩ else ⟨false, true⟩

/-! ### Dual dispatcher (`DualTareaRepository`)

Module-level resilience configuration of `tarea_repository.py`. -/

def RETRY_MAX_RETRIES : Nat := 2

def RETRY_BASE_DELAY : ℚ := 1/2

def CIRCUIT_FAILURE_THRESHOLD : Nat := 3

def CIRCUIT_RECOVERY_TIMEOUT : ℚ := 30

/-- The errors a write dispatch can raise: both breakers open, both pings
down, both parallel writes failed (carrying both causes), or the propagated
error of a single-store write. -/
inductive DualError (ε : Type) where
  | bothUnavailableOpen
  | bothUnavailablePing
  | bothFailed (sql_error : ε) (mongo_error : ε)
  | storeError (e : ε)
deriving DecidableEq

/-- `_execute_parallel`, observed at its join point: each future's outcome
(the store call's result, or the `TimeoutError` injected when the parallel
deadline elapsed) updates the matching breaker; the per-store errors are
handed back to the caller. -/
def execute_parallel {ε : Type} (sql_circuit mongo_circuit : CircuitBreaker)
    (now : ℚ) (sql_outcome mongo_outcome : Except ε Unit) :
    Option ε × Option ε × CircuitBreaker × CircuitBreaker :=
  let sqlStep := match sql_outcome with
    | .ok _ => ((none : Option ε), sql_circuit.record_success)
    | .error e => (some e, sql_circuit.record_failure now)
  let mongoStep := match mongo_outcome with
    | .ok _ => ((none : Option ε), mongo_circuit.record_success)
    | .error e => (some e, mongo_circuit.record_failure now)
  (sqlStep.1, mongoStep.1, sqlStep.2, mongoStep.2)

/-- `_execute_solo_sql` / `_execute_solo_mongo`: the store call is wrapped in
`retry_with_backoff`; success records a breaker success, any raised error
records a failure and propagates.  Returns the outcome, the updated breaker
and how many times the store adapter was invoked. -/
def execute_solo {ε : Type} (circuit : CircuitBreaker) (now : ℚ)
    (behavior : Nat → Outcome ε Unit) : Except ε Unit × CircuitBreaker × Nat :=
  let run := retry_with_backoff behavior RETRY_MAX_RETRIES RETRY_BASE_DELAY
  match run.result with
  | .ok _ => (.ok (), circuit.record_success, run.calls)
  | .err e => (.error e, circuit.record_failure now, run.calls)

/-- Observable outcome of one `_dispatch_escritura` call: the result returned
or raised to the caller, both breakers afterwards, and how many times each
store adapter was invoked. -/
structure DispatchResult (ε : Type) where
  result : Except (DualError ε) Unit
  sql_circuit : CircuitBreaker
  mongo_circuit : CircuitBreaker
  sqlCalls : Nat
  mongoCalls : Nat

/-- `_dispatch_escritura` for a write (`save` / `eliminar`).  Environment
inputs: `now` the instant, `sql_ok`/`mongo_ok` the two probe answers (used
only when both breakers allow), `sql_parallel`/`mongo_parallel` the outcomes
the two futures of the parallel path would deliver, and
`sql_behavior`/`mongo_behavior` the per-attempt outcomes a single-store
retry-wrapped call would see. -/
def dispatch_escritura {ε : Type} (sql_circuit mongo_circuit : CircuitBreaker)
    (now : ℚ) (sql_ok mongo_ok : Bool)
    (sql_parallel mongo_parallel : Except ε Unit)
    (sql_behavior mongo_behavior : Nat → Outcome ε Unit) : DispatchResult ε :=
  let sqlAllow := sql_circuit.allow_request now
  let mongoAllow := mongo_circuit.allow_request now
  if !sqlAllow.1 && !mongoAllow.1 then
    ⟨.error .bothUnavailableOpen, sqlAllow.2, mongoAllow.2, 0, 0⟩
  else if sqlAllow.1 && !mongoAllow.1 then
    let solo := execute_solo sqlAllow.2 now sql_behavior
    ⟨solo.1.mapError .storeError, solo.2.1, mongoAllow.2, solo.2.2, 0⟩
  else if mongoAllow.1 && !sqlAllow.1 then
    let solo := execute_solo mongoAllow.2 now mongo_behavior
    ⟨solo.1.mapError .storeError, sqlAllow.2, solo.2.1, 0, solo.2.2⟩
  else
    if !sql_ok && !mongo_ok then
      ⟨.error .bothUnavailablePing, sqlAllow.2.record_failure now,
        mongoAllow.2.record_failure now, 0, 0⟩
    else if sql_ok && !mongo_ok then
      let solo := execute_solo sqlAllow.2 now sql_behavior
      ⟨solo.1.mapError .storeError, solo.2.1, mongoAllow.2.record_failure now,
        solo.2.2, 0⟩
    else if mongo_ok && !sql_ok then
      let solo := execute_solo mongoAllow.2 now mongo_behavior
      ⟨solo.1.mapError .storeError, sqlAllow.2.record_failure now, solo.2.1,
        0, solo.2.2⟩
    else
      let par := execute_parallel sqlAllow.2 mongoAllow.2 now
        sql_parallel mongo_parallel
      match par.1, par.2.1 with
      | some e1, some e2 =>
        ⟨.error (.bothFailed e1 e2), par.2.2.1, par.2.2.2, 1, 1⟩
      | _, _ => ⟨.ok (), par.2.2.1, par.2.2.2, 1, 1⟩

/-! ### Read path (`DualTareaRepository.get`)

The domain entity (`core/domain/models/tarea.py`); the 128-bit UUID is
modelled as a number. -/

/-- `EstadoTarea`. -/
inductive EstadoTarea where
  | PENDIENTE
  | EN_PROGRESO
  | COMPLETADA
deriving DecidableEq

/-- `Tarea`. -/
structure Tarea where
  id : Nat
  titulo : String
  descripcion : Option String
  estado : EstadoTarea
deriving DecidableEq

/-- Observable outcome of one `get` call: the value returned to the caller,
both breakers afterwards, and how many times each store adapter was
invoked. -/
structure GetResult (ε : Type) where
  value : Option Tarea
  sql_circuit : CircuitBreaker
  mongo_circuit : CircuitBreaker
  sqlCalls : Nat
  mongoCalls : Nat

/-- `DualTareaRepository.get`.  Each store's behaviour is the per-attempt
outcome its retry-wrapped `get` would see.  The primary branch runs only if
its breaker admits the request; a successful primary value is returned
immediately only when non-null; a raised error records a breaker failure and
falls through; the secondary branch is symmetric, except that its value is
returned whether null or not (a null secondary success and the final
`return None` are observably the same). -/
def dualGet {ε : Type} (sql_circuit mongo_circuit : CircuitBreaker) (now : ℚ)
    (sql_behavior mongo_behavior : Nat → Outcome ε (Option Tarea)) :
    GetResult ε :=
  let sqlAllow := sql_circuit.allow_request now
  let afterSql : Option Tarea × CircuitBreaker × Nat × Bool :=
    if sqlAllow.1 then
      let run := retry_with_backoff sql_behavior RETRY_MAX_RETRIES
        RETRY_BASE_DELAY
      match run.result with
      | .ok t => (t, sqlAllow.2.record_success, run.calls, t.isSome)
      | .err _ => (none, sqlAllow.2.record_failure now, run.calls, false)
    else (none, sqlAllow.2, 0, false)
  if afterSql.2.2.2 then
    ⟨afterSql.1, afterSql.2.1, mongo_circuit, afterSql.2.2.1, 0⟩
  else
    let mongoAllow := mongo_circuit.allow_request now
    if mongoAllow.1 then
      let run2 := retry_with_backoff mongo_behavior RETRY_MAX_RETRIES
        RETRY_BASE_DELAY
      match run2.result with
      | .ok t2 =>
        ⟨t2, afterSql.2.1, mongoAllow.2.record_success, afterSql.2.2.1,
          run2.calls⟩
      | .err _ =>
        ⟨none, afterSql.2.1, mongoAllow.2.record_failure now, afterSql.2.2.1,
          run2.calls⟩
    else ⟨none, afterSql.2.1, mongoAllow.2, afterSql.2.2.1, 0⟩

/-! ### Theorems -/

/-! Basic facts about the retry loop. -/

theorem retry_attempts_of_success {ε α : Type} {f : Nat → Outcome ε α}
    {max_retries : Nat} {base_delay : ℚ} {attempt further : Nat} {a : α}
    (h : f attempt = .success a) :
    retry_attempts f max_retries base_delay attempt further = ⟨.ok a, 1, []⟩ := by
  cases further <;> simp [retry_attempts, h]

theorem retry_attempts_of_fatal {ε α : Type} {f : Nat → Outcome ε α}
    {max_retries : Nat} {base_delay : ℚ} {attempt further : Nat} {e : ε}
    (h : f attempt = .fatal e) :
    retry_attempts f max_retries base_delay attempt further = ⟨.err e, 1, []⟩ := by
  cases further <;> simp [retry_attempts, h]

theorem retry_attempts_of_retryable_zero {ε α : Type} {f : Nat → Outcome ε α}
    {max_retries : Nat} {base_delay : ℚ} {attempt : Nat} {e : ε}
    (h : f attempt = .retryable e) :
    retry_attempts f max_retries base_delay attempt 0 =
      ⟨.err e, 1,
        if attempt ≤ max_retries then [base_delay * 2 ^ (attempt - 1)] else []⟩ := by
  simp [retry_attempts, h]

theorem retry_attempts_of_retryable_succ {ε α : Type} {f : Nat → Outcome ε α}
    {max_retries : Nat} {base_delay : ℚ} {attempt n : Nat} {e : ε}
    (h : f attempt = .retryable e) :
    retry_attempts f max_retries base_delay attempt (n + 1) =
      ⟨(retry_attempts f max_retries base_delay (attempt + 1) n).result,
       (retry_attempts f max_retries base_delay (attempt + 1) n).calls + 1,
       (if attempt ≤ max_retries then [base_delay * 2 ^ (attempt - 1)] else []) ++
         (retry_attempts f max_retries base_delay (attempt + 1) n).sleeps⟩ := by
  conv_lhs => rw [retry_attempts.eq_def, h]

theorem retry_attempts_calls_le {ε α : Type} (f : Nat → Outcome ε α)
    (max_retries : Nat) (base_delay : ℚ) :
    ∀ further attempt,
      (retry_attempts f max_retries base_delay attempt further).calls ≤ further + 1 := by
  intro further
  induction further with
  | zero =>
    intro attempt
    cases h : f attempt with
    | success a => simp [retry_attempts_of_success h]
    | retryable e => simp [retry_attempts_of_retryable_zero h]
    | fatal e => simp [retry_attempts_of_fatal h]
  | succ n ih =>
    intro attempt
    cases h : f attempt with
    | success a => simp [retry_attempts_of_success h]
    | fatal e => simp [retry_attempts_of_fatal h]
    | retryable e =>
      rw [retry_attempts_of_retryable_succ h]
      exact Nat.succ_le_succ (ih (attempt + 1))

theorem retry_attempts_calls_pos {ε α : Type} (f : Nat → Outcome ε α)
    (max_retries : Nat) (base_delay : ℚ) :
    ∀ further attempt,
      1 ≤ (retry_attempts f max_retries base_delay attempt further).calls := by
  intro further
  induction further with
  | zero =>
    intro attempt
    cases h : f attempt with
    | success a => simp [retry_attempts_of_success h]
    | retryable e => simp [retry_attempts_of_retryable_zero h]
    | fatal e => simp [retry_attempts_of_fatal h]
  | succ n _ =>
    intro attempt
    cases h : f attempt with
    | success a => simp [retry_attempts_of_success h]
    | retryable e => rw [retry_attempts_of_retryable_succ h]; exact Nat.le_add_left 1 _
    | fatal e => simp [retry_attempts_of_fatal h]

/-- A value returned by the retry loop comes from some successful call of the
wrapped operation. -/
theorem retry_attempts_ok_of_success {ε α : Type} (f : Nat → Outcome ε α)
    (max_retries : Nat) (base_delay : ℚ) :
    ∀ further attempt a,
      (retry_attempts f max_retries base_delay attempt further).result = .ok a →
      ∃ k, f k = .success a := by
  intro further
  induction further with
  | zero =>
    intro attempt a h
    cases hf : f attempt with
    | success b =>
      rw [retry_attempts_of_success hf] at h
      have hba : b = a := by simpa using h
      exact ⟨attempt, by rw [hf, hba]⟩
    | retryable e => rw [retry_attempts_of_retryable_zero hf] at h; simp at h
    | fatal e => rw [retry_attempts_of_fatal hf] at h; simp at h
  | succ n ih =>
    intro attempt a h
    cases hf : f attempt with
    | success b =>
      rw [retry_attempts_of_success hf] at h
      have hba : b = a := by simpa using h
      exact ⟨attempt, by rw [hf, hba]⟩
    | retryable e =>
      rw [retry_attempts_of_retryable_succ hf] at h
      exact ih (attempt + 1) a h
    | fatal e => rw [retry_attempts_of_fatal hf] at h; simp at h

/-- When the calls from `attempt` on raise retryable errors up to a first
non-retryable error at call `j` (within the loop's span), the loop stops at
call `j`, re-raises that error, and sleeps only for the retryable calls
before `j`. -/
theorem retry_attempts_fatal_chain {ε α : Type} (f : Nat → Outcome ε α)
    (max_retries : Nat) (base_delay : ℚ) :
    ∀ further attempt, attempt + further = max_retries + 1 → 1 ≤ attempt →
      ∀ j e, attempt ≤ j → j ≤ max_retries + 1 →
        (∀ k, attempt ≤ k → k < j → ∃ e2, f k = .retryable e2) →
        f j = .fatal e →
        (retry_attempts f max_retries base_delay attempt further).result = .err e ∧
        (retry_attempts f max_retries base_delay attempt further).calls = j + 1 - attempt ∧
        (retry_attempts f max_retries base_delay attempt further).sleeps.length
          = j - attempt := by
  intro further
  induction further with
  | zero =>
    intro attempt hinv h1 j e haj hjm hpre hj
    have hj' : j = attempt := by omega
    rw [hj'] at hj
    rw [retry_attempts_of_fatal hj]
    refine ⟨rfl, ?_, ?_⟩
    · show 1 = j + 1 - attempt
      omega
    · show (0 : Nat) = j - attempt
      omega
  | succ n ih =>
    intro attempt hinv h1 j e haj hjm hpre hj
    rcases Nat.eq_or_lt_of_le haj with hja | hja
    · rw [← hja] at hj
      rw [retry_attempts_of_fatal hj]
      refine ⟨rfl, ?_, ?_⟩
      · show 1 = j + 1 - attempt
        omega
      · show (0 : Nat) = j - attempt
        omega
    · obtain ⟨e2, he2⟩ := hpre attempt le_rfl hja
      have hle : attempt ≤ max_retries := by omega
      have ihres := ih (attempt + 1) (by omega) (by omega) j e (by omega) hjm
        (fun k hk1 hk2 => hpre k (by omega) hk2) hj
      rw [retry_attempts_of_retryable_succ he2]
      have hc := ihres.2.1
      have hs := ihres.2.2
      refine ⟨ihres.1, ?_, ?_⟩
      · show (retry_attempts f max_retries base_delay (attempt + 1) n).calls + 1
            = j + 1 - attempt
        omega
      · show ((if attempt ≤ max_retries then [base_delay * 2 ^ (attempt - 1)] else []) ++
            (retry_attempts f max_retries base_delay (attempt + 1) n).sleeps).length
            = j - attempt
        rw [if_pos hle]
        simp only [List.length_append, List.length_cons, List.length_nil]
        omega


/-- When every call in the loop's span raises a retryable error, the loop
performs every attempt and re-raises the final attempt's error. -/
theorem retry_attempts_all_retryable {ε α : Type} (f : Nat → Outcome ε α)
    (max_retries : Nat) (base_delay : ℚ) :
    ∀ further attempt, attempt + further = max_retries + 1 → 1 ≤ attempt →
      (∀ k, attempt ≤ k → k ≤ max_retries + 1 → ∃ e2, f k = .retryable e2) →
      ∀ e, f (max_retries + 1) = .retryable e →
      (retry_attempts f max_retries base_delay attempt further).result = .err e ∧
      (retry_attempts f max_retries base_delay attempt further).calls = further + 1 := by
  intro further
  induction further with
  | zero =>
    intro attempt hinv h1 _hpre e he
    have ha : attempt = max_retries + 1 := by omega
    rw [ha, retry_attempts_of_retryable_zero he]
    exact ⟨rfl, rfl⟩
  | succ n ih =>
    intro attempt hinv h1 hpre e he
    obtain ⟨e2, he2⟩ := hpre attempt le_rfl (by omega)
    have ihres := ih (attempt + 1) (by omega) (by omega)
      (fun k hk1 hk2 => hpre k (by omega) hk2) e he
    rw [retry_attempts_of_retryable_succ he2]
    refine ⟨ihres.1, ?_⟩
    show (retry_attempts f max_retries base_delay (attempt + 1) n).calls + 1 = n + 1 + 1
    have hc := ihres.2
    omega

/-- The sleeps of a retry run form a contiguous doubling schedule. -/
theorem retry_attempts_sleeps_spec {ε α : Type} (f : Nat → Outcome ε α)
    (max_retries : Nat) (base_delay : ℚ) :
    ∀ further attempt, attempt + further = max_retries + 1 → 1 ≤ attempt →
      ∃ j, j ≤ further ∧
        (retry_attempts f max_retries base_delay attempt further).sleeps
          = (List.range' (attempt - 1) j).map (fun i => base_delay * 2 ^ i) := by
  intro further
  induction further with
  | zero =>
    intro attempt hinv h1
    refine ⟨0, le_rfl, ?_⟩
    cases h : f attempt with
    | success a => simp [retry_attempts_of_success h]
    | fatal e => simp [retry_attempts_of_fatal h]
    | retryable e =>
      rw [retry_attempts_of_retryable_zero h]
      have : ¬ attempt ≤ max_retries := by omega
      simp [this]
  | succ n ih =>
    intro attempt hinv h1
    cases h : f attempt with
    | success a => exact ⟨0, by omega, by simp [retry_attempts_of_success h]⟩
    | fatal e => exact ⟨0, by omega, by simp [retry_attempts_of_fatal h]⟩
    | retryable e =>
      obtain ⟨j, hj, hsl⟩ := ih (attempt + 1) (by omega) (by omega)
      have hle : attempt ≤ max_retries := by omega
      refine ⟨j + 1, by omega, ?_⟩
      rw [retry_attempts_of_retryable_succ h]
      show (if attempt ≤ max_retries then [base_delay * 2 ^ (attempt - 1)] else []) ++
          (retry_attempts f max_retries base_delay (attempt + 1) n).sleeps
          = (List.range' (attempt - 1) (j + 1)).map (fun i => base_delay * 2 ^ i)
      rw [if_pos hle, hsl, List.range'_succ]
      have harith : attempt - 1 + 1 = attempt := by omega
      simp [harith]

/-- Closed form of the doubling schedule's total. -/
theorem doubling_schedule_sum (base_delay : ℚ) :
    ∀ j, ((List.range j).map (fun i => base_delay * 2 ^ i)).sum
      = base_delay * (2 ^ j - 1) := by
  intro j
  induction j with
  | zero => simp
  | succ n ih =>
    rw [List.range_succ, List.map_append, List.sum_append, ih]
    simp only [List.map_cons, List.map_nil, List.sum_cons, List.sum_nil]
    ring

/-- Claim C4: for every nullary operation and error classification,
`retry_with_backoff` (i) returns after exactly one invocation when the first
attempt succeeds, (ii) invokes the operation at most `1 + max_retries` times,
(iii) stops at the first non-retryable error — that error propagates, no
further attempt is made and no sleep follows it — and (iv) when every attempt
fails with a retryable error, the final attempt's error propagates. -/
theorem retry_with_backoff_policy_C4 {ε α : Type} (f : Nat → Outcome ε α)
    (max_retries : Nat) (base_delay : ℚ) :
    (∀ a, f 1 = .success a →
      retry_with_backoff f max_retries base_delay = ⟨.ok a, 1, []⟩) ∧
    (retry_with_backoff f max_retries base_delay).calls ≤ 1 + max_retries ∧
    (∀ j e, 1 ≤ j → j ≤ max_retries + 1 →
      (∀ k, 1 ≤ k → k < j → ∃ e2, f k = .retryable e2) → f j = .fatal e →
      (retry_with_backoff f max_retries base_delay).result = .err e ∧
      (retry_with_backoff f max_retries base_delay).calls = j ∧
      (retry_with_backoff f max_retries base_delay).sleeps.length = j - 1) ∧
    (∀ e, (∀ k, 1 ≤ k → k ≤ max_retries + 1 → ∃ e2, f k = .retryable e2) →
      f (max_retries + 1) = .retryable e →
      (retry_with_backoff f max_retries base_delay).result = .err e) := by
  refine ⟨?_, ?_, ?_, ?_⟩
  · intro a h
    exact retry_attempts_of_success h
  · have h := retry_attempts_calls_le f max_retries base_delay max_retries 1
    unfold retry_with_backoff
    omega
  · intro j e h1 hj hpre hf
    have h := retry_attempts_fatal_chain f max_retries base_delay max_retries 1
      (by omega) le_rfl j e h1 hj (fun k hk1 hk2 => hpre k hk1 hk2) hf
    unfold retry_with_backoff
    exact ⟨h.1, by omega, by omega⟩
  · intro e hpre he
    exact (retry_attempts_all_retryable f max_retries base_delay max_retries 1
      (by omega) le_rfl (fun k hk1 hk2 => hpre k hk1 hk2) e he).1

/-- Witness for C4 at a concrete run: first attempt raises a retryable error,
second raises a non-retryable one; the run stops there with one sleep. -/
theorem retry_with_backoff_policy_C4_witness :
    (retry_with_backoff
        (fun k => if k = 1 then Outcome.retryable (α := Nat) "net"
                  else Outcome.fatal "bug") 2 (1/2)).result = .err "bug" ∧
    (retry_with_backoff
        (fun k => if k = 1 then Outcome.retryable (α := Nat) "net"
                  else Outcome.fatal "bug") 2 (1/2)).calls = 2 ∧
    (retry_with_backoff
        (fun k => if k = 1 then Outcome.retryable (α := Nat) "net"
                  else Outcome.fatal "bug") 2 (1/2)).sleeps.length = 2 - 1 :=
  (retry_with_backoff_policy_C4
      (fun k => if k = 1 then Outcome.retryable (α := Nat) "net"
                else Outcome.fatal "bug") 2 (1/2)).2.2.1 2 "bug"
    (by omega) (by omega)
    (fun k hk1 hk2 => ⟨"net", by
      have hk : k = 1 := by omega
      rw [hk]
      rfl⟩)
    rfl

/-- Claim C5: in every run of `retry_with_backoff`, the sleep recorded at
position `k` (0-indexed; it follows the `(k+1)`-st attempt, which raised a
retryable error) is `base_delay * 2 ^ k`, and the total sleep of the run is
at most `base_delay * (2 ^ max_retries - 1)`. -/
theorem retry_with_backoff_schedule_C5 {ε α : Type} (f : Nat → Outcome ε α)
    (max_retries : Nat) (base_delay : ℚ) (hbase : 0 ≤ base_delay) :
    (∀ k, ∀ hk : k < (retry_with_backoff f max_retries base_delay).sleeps.length,
      (retry_with_backoff f max_retries base_delay).sleeps.get ⟨k, hk⟩
        = base_delay * 2 ^ k) ∧
    (retry_with_backoff f max_retries base_delay).sleeps.sum
      ≤ base_delay * (2 ^ max_retries - 1) := by
  obtain ⟨j, hj, hsl⟩ := retry_attempts_sleeps_spec f max_retries base_delay
    max_retries 1 (by omega) le_rfl
  have hsl' : (retry_with_backoff f max_retries base_delay).sleeps
      = (List.range j).map (fun i => base_delay * 2 ^ i) := by
    unfold retry_with_backoff
    rw [hsl, List.range_eq_range']
  constructor
  · intro k hk
    have hk' : k < j := by
      have := hk
      rw [hsl'] at this
      simpa using this
    simp [hsl', List.get_eq_getElem]
  · rw [hsl', doubling_schedule_sum]
    have h2 : (2 : ℚ) ^ j ≤ 2 ^ max_retries :=
      pow_le_pow_right₀ (by norm_num) hj
    have : (2 : ℚ) ^ j - 1 ≤ 2 ^ max_retries - 1 := by linarith
    exact mul_le_mul_of_nonneg_left this hbase

/-- Witness for C5: every attempt retryable with `max_retries = 2`,
`base_delay = 1/2`; the sleeps are `[1/2, 1]`, summing below `3/2`. -/
theorem retry_with_backoff_schedule_C5_witness :
    (retry_with_backoff (fun _ => Outcome.retryable (α := Nat) "net") 2
        (1/2)).sleeps.sum ≤ (1/2 : ℚ) * (2 ^ 2 - 1) :=
  (retry_with_backoff_schedule_C5 (fun _ => Outcome.retryable (α := Nat) "net")
    2 (1/2) (by norm_num)).2

theorem record_failure_failureCount (cb : CircuitBreaker) (now : ℚ) :
    (cb.record_failure now).failureCount = cb.failureCount + 1 := by
  simp only [CircuitBreaker.record_failure]
  split_ifs <;> rfl

theorem record_failure_threshold (cb : CircuitBreaker) (now : ℚ) :
    (cb.record_failure now).failureThreshold = cb.failureThreshold := by
  simp only [CircuitBreaker.record_failure]
  split_ifs <;> rfl

theorem record_failure_lastFailureTime (cb : CircuitBreaker) (now : ℚ) :
    (cb.record_failure now).lastFailureTime = some now := by
  simp only [CircuitBreaker.record_failure]
  split_ifs <;> rfl

theorem state_failureCount (cb : CircuitBreaker) (now : ℚ) :
    ((cb.state now).2).failureCount = cb.failureCount := by
  unfold CircuitBreaker.state
  split
  · split <;> rfl
  · rfl

theorem state_threshold (cb : CircuitBreaker) (now : ℚ) :
    ((cb.state now).2).failureThreshold = cb.failureThreshold := by
  unfold CircuitBreaker.state
  split
  · split <;> rfl
  · rfl

theorem allow_request_snd (cb : CircuitBreaker) (now : ℚ) :
    ((cb.allow_request now).2) = (cb.state now).2 := by
  unfold CircuitBreaker.allow_request
  rcases h : cb.state now with ⟨s, cb'⟩
  cases s <;> simp

theorem allow_request_of_closed (cb : CircuitBreaker) (now : ℚ)
    (h : cb.stateRaw = .CLOSED) : cb.allow_request now = (true, cb) := by
  unfold CircuitBreaker.allow_request CircuitBreaker.state
  rw [h]

/-- Tracking lemma for consecutive failures: as long as the breaker starts in
the `CLOSED`/`OPEN` regime characterised by its counter, each failure bumps
the counter and the stored state is `OPEN` exactly from the threshold on. -/
theorem applyFailures_track (N : Nat) :
    ∀ (ts : List ℚ) (cb : CircuitBreaker), cb.failureThreshold = N →
      cb.stateRaw = (if N ≤ cb.failureCount then CBState.OPEN else CBState.CLOSED) →
      (applyFailures cb ts).failureThreshold = N ∧
      (applyFailures cb ts).failureCount = cb.failureCount + ts.length ∧
      (applyFailures cb ts).stateRaw
        = (if N ≤ cb.failureCount + ts.length then CBState.OPEN else CBState.CLOSED) := by
  intro ts
  induction ts with
  | nil =>
    intro cb hN hst
    simpa [applyFailures] using ⟨hN, hst⟩
  | cons t ts ih =>
    intro cb hN hst
    have hnotHO : ¬ cb.stateRaw = CBState.HALF_OPEN := by
      rw [hst]; split <;> simp
    have hstep : (cb.record_failure t).stateRaw
        = (if N ≤ cb.failureCount + 1 then CBState.OPEN else CBState.CLOSED) := by
      simp only [CircuitBreaker.record_failure, if_neg hnotHO]
      rw [hN]
      split_ifs with h
      · rfl
      · rw [hst, if_neg (by omega)]
    have := ih (cb.record_failure t)
      (by rw [record_failure_threshold, hN])
      (by rw [hstep, record_failure_failureCount])
    rw [record_failure_failureCount] at this
    simp only [applyFailures, List.length_cons]
    refine ⟨this.1, ?_, ?_⟩
    · rw [this.2.1]; omega
    · rw [this.2.2,
        show cb.failureCount + 1 + ts.length = cb.failureCount + (ts.length + 1) from
          by omega]

/-- Claim C6: from the initial `CLOSED` state of a breaker with threshold
`N ≥ 1`, exactly `N` consecutive `record_failure` calls open the circuit,
while `N - 1` leave it `CLOSED` and still admitting requests. -/
theorem circuit_breaker_threshold_C6 (N : Nat) (recovery_timeout : ℚ)
    (hN : 1 ≤ N) (ts : List ℚ) (now : ℚ) :
    (ts.length = N →
      (applyFailures (CircuitBreaker.make N recovery_timeout) ts).stateRaw
        = CBState.OPEN) ∧
    (ts.length = N - 1 →
      (applyFailures (CircuitBreaker.make N recovery_timeout) ts).stateRaw
        = CBState.CLOSED ∧
      ((applyFailures (CircuitBreaker.make N recovery_timeout) ts).allow_request
        now).1 = true) := by
  have htrack := applyFailures_track N ts (CircuitBreaker.make N recovery_timeout)
    rfl (by
      have hc : ¬ N ≤ (CircuitBreaker.make N recovery_timeout).failureCount := by
        simp [CircuitBreaker.make]
        omega
      rw [if_neg hc]
      rfl)
  rcases htrack with ⟨_, _, hst⟩
  constructor
  · intro hlen
    rw [hst, hlen]
    simp [CircuitBreaker.make]
  · intro hlen
    have hcl : (applyFailures (CircuitBreaker.make N recovery_timeout) ts).stateRaw
        = CBState.CLOSED := by
      rw [hst, hlen]
      exact if_neg (by simp [CircuitBreaker.make]; omega)
    exact ⟨hcl, by rw [allow_request_of_closed _ now hcl]⟩

/-- Witness for C6 at `N = 3`: three failures open the breaker, two leave it
closed and admitting. -/
theorem circuit_breaker_threshold_C6_witness :
    ((applyFailures (CircuitBreaker.make 3 30) [0, 1, 2]).stateRaw
      = CBState.OPEN) ∧
    ((applyFailures (CircuitBreaker.make 3 30) [0, 1]).stateRaw
      = CBState.CLOSED ∧
     ((applyFailures (CircuitBreaker.make 3 30) [0, 1]).allow_request 5).1
      = true) :=
  ⟨(circuit_breaker_threshold_C6 3 30 (by omega) [0, 1, 2] 5).1 rfl,
   (circuit_breaker_threshold_C6 3 30 (by omega) [0, 1] 5).2 rfl⟩

/-- Claim C7: from `HALF_OPEN`, whatever the counter, `record_success` closes
the circuit and clears the failure tuple, while `record_failure` reopens it
unconditionally. -/
theorem circuit_breaker_half_open_C7 (cb : CircuitBreaker) (now : ℚ)
    (h : cb.stateRaw = CBState.HALF_OPEN) :
    cb.record_success.stateRaw = CBState.CLOSED ∧
    cb.record_success.failureCount = 0 ∧
    cb.record_success.lastFailureTime = none ∧
    (cb.record_failure now).stateRaw = CBState.OPEN := by
  refine ⟨rfl, rfl, rfl, ?_⟩
  simp only [CircuitBreaker.record_failure, if_pos h]

/-- Witness for C7 on a half-open breaker whose counter `1` is still below
its threshold `3`. -/
theorem circuit_breaker_half_open_C7_witness :
    (1 : Nat) < 3 ∧
    ({ CircuitBreaker.make 3 30 with
        stateRaw := CBState.HALF_OPEN, failureCount := 1 } :
      CircuitBreaker).record_success.stateRaw = CBState.CLOSED ∧
    ({ CircuitBreaker.make 3 30 with
        stateRaw := CBState.HALF_OPEN, failureCount := 1 } :
      CircuitBreaker).record_success.failureCount = 0 ∧
    ({ CircuitBreaker.make 3 30 with
        stateRaw := CBState.HALF_OPEN, failureCount := 1 } :
      CircuitBreaker).record_success.lastFailureTime = none ∧
    (({ CircuitBreaker.make 3 30 with
        stateRaw := CBState.HALF_OPEN, failureCount := 1 } :
      CircuitBreaker).record_failure 7).stateRaw = CBState.OPEN :=
  ⟨by omega,
    (circuit_breaker_half_open_C7 _ 7 rfl).1,
    (circuit_breaker_half_open_C7 _ 7 rfl).2.1,
    (circuit_breaker_half_open_C7 _ 7 rfl).2.2.1,
    (circuit_breaker_half_open_C7 _ 7 rfl).2.2.2⟩

/-- The `state` property either leaves the tuple unchanged or performs the
lazy `OPEN → HALF_OPEN` transition. -/
theorem state_snd_cases (cb : CircuitBreaker) (now : ℚ) :
    (cb.state now).2 = cb ∨
      (cb.state now).2 = { cb with stateRaw := CBState.HALF_OPEN } := by
  unfold CircuitBreaker.state
  cases hst : cb.stateRaw with
  | OPEN =>
    cases hlt : cb.lastFailureTime with
    | none => left; rfl
    | some t =>
      by_cases hrt : now - t ≥ cb.recoveryTimeout
      · right; simp [hrt]
      · left; simp [hrt]
  | CLOSED => left; rfl
  | HALF_OPEN => left; rfl

/-- Claim C8 counterexample: one sub-threshold `record_failure` on a fresh
breaker (threshold 3) reaches a state that is `CLOSED` yet carries a non-null
`lastFailureTime`, refuting the claimed invariant
`CLOSED → failureCount < failureThreshold ∧ lastFailureAt = null`. -/
theorem circuit_breaker_closed_invariant_C8_counterexample :
    (runOps (CircuitBreaker.make 3 30) [CBOp.recordFailure 0]).stateRaw
      = CBState.CLOSED ∧
    (runOps (CircuitBreaker.make 3 30) [CBOp.recordFailure 0]).lastFailureTime
      ≠ none := by
  constructor
  · rfl
  · show (some (0 : ℚ)) ≠ none
    simp

/-- Claim C8 (amended): in every state reachable from a fresh breaker with
threshold at least one, `CLOSED` implies the counter is strictly below the
threshold.  (The `lastFailureAt = null` part of the claimed invariant is
dropped: a sub-threshold failure leaves the breaker `CLOSED` with a
timestamp.) -/
theorem circuit_breaker_closed_invariant_C8_amended (N : Nat)
    (recovery_timeout : ℚ) (hN : 1 ≤ N) (ops : List CBOp) :
    (runOps (CircuitBreaker.make N recovery_timeout) ops).stateRaw
        = CBState.CLOSED →
    (runOps (CircuitBreaker.make N recovery_timeout) ops).failureCount
      < (runOps (CircuitBreaker.make N recovery_timeout) ops).failureThreshold := by
  suffices h : ∀ (ops : List CBOp) (cb : CircuitBreaker),
      1 ≤ cb.failureThreshold →
      (cb.stateRaw = CBState.CLOSED → cb.failureCount < cb.failureThreshold) →
      1 ≤ (runOps cb ops).failureThreshold ∧
      ((runOps cb ops).stateRaw = CBState.CLOSED →
        (runOps cb ops).failureCount < (runOps cb ops).failureThreshold) by
    exact (h ops (CircuitBreaker.make N recovery_timeout) hN
      (fun _ => by simpa [CircuitBreaker.make] using hN)).2
  intro ops
  induction ops with
  | nil => intro cb h1 h2; exact ⟨h1, h2⟩
  | cons op ops ih =>
    intro cb h1 h2
    refine ih (CBOp.apply cb op) ?_ ?_
    · cases op with
      | recordSuccess => exact h1
      | recordFailure t => rw [CBOp.apply, record_failure_threshold]; exact h1
      | observeState t => rw [CBOp.apply, state_threshold]; exact h1
      | allowRequest t => rw [CBOp.apply, allow_request_snd, state_threshold]; exact h1
      | reset => exact h1
    · cases op with
      | recordSuccess =>
        intro _
        simpa [CBOp.apply, CircuitBreaker.record_success] using h1
      | recordFailure t =>
        intro hcl
        simp only [CBOp.apply] at hcl ⊢
        rw [record_failure_failureCount, record_failure_threshold]
        simp only [CircuitBreaker.record_failure] at hcl
        by_cases hho : cb.stateRaw = CBState.HALF_OPEN
        · rw [if_pos hho] at hcl
          exact absurd hcl (by simp)
        · rw [if_neg hho] at hcl
          by_cases hth : cb.failureThreshold ≤ cb.failureCount + 1
          · rw [if_pos hth] at hcl
            exact absurd hcl (by simp)
          · omega
      | observeState t =>
        intro hcl
        simp only [CBOp.apply] at hcl ⊢
        rw [state_failureCount, state_threshold]
        apply h2
        rcases state_snd_cases cb t with hc | hc
        · rw [hc] at hcl; exact hcl
        · rw [hc] at hcl; exact absurd hcl (by simp)
      | allowRequest t =>
        intro hcl
        simp only [CBOp.apply, allow_request_snd] at hcl ⊢
        rw [state_failureCount, state_threshold]
        apply h2
        rcases state_snd_cases cb t with hc | hc
        · rw [hc] at hcl; exact hcl
        · rw [hc] at hcl; exact absurd hcl (by simp)
      | reset =>
        intro _
        simpa [CBOp.apply, CircuitBreaker.reset] using h1

/-- Witness for the amended C8 on the counterexample's reachable state. -/
theorem circuit_breaker_closed_invariant_C8_amended_witness :
    (runOps (CircuitBreaker.make 3 30) [CBOp.recordFailure 0]).failureCount
      < (runOps (CircuitBreaker.make 3 30) [CBOp.recordFailure 0]).failureThreshold :=
  circuit_breaker_closed_invariant_C8_amended 3 30 (by omega)
    [CBOp.recordFailure 0] rfl

/-- Claim C9 counterexample: with a sqlite DSN and the store unreachable, the
SQL probe still answers `True`, and no round trip was attempted at all — so
`True` is not returned "only when a successful minimal round trip actually
occurred". -/
theorem health_probe_C9_counterexample :
    (ping_sql (some "sqlite:///app.db") false).ok = true ∧
    (ping_sql (some "sqlite:///app.db") false).attempted = false := by
  decide

/-- Claim C9 (amended): the Mongo probe attempts a round trip and answers
`true` exactly when it succeeds; the SQL probe does so only when the DSN is
set, non-empty, not a `sqlite` DSN and mentions `postgres` — for every other
DSN configuration it short-circuits to `True` without attempting any round
trip. -/
theorem health_probe_C9_amended (sql_dsn : Option String)
    (sql_conn mongo_conn : Bool) :
    ping_mongo mongo_conn = ⟨mongo_conn, true⟩ ∧
    (∀ dsn, sql_dsn = some dsn → dsn.data.isEmpty = false →
      startsWithList dsn.data "sqlite".data = false →
      containsList dsn.data "postgres".data = true →
      ping_sql sql_dsn sql_conn = ⟨sql_conn, true⟩) ∧
    (∀ dsn, sql_dsn = some dsn →
      (dsn.data.isEmpty = true ∨ startsWithList dsn.data "sqlite".data = true ∨
        containsList dsn.data "postgres".data = false) →
      ping_sql sql_dsn sql_conn = ⟨true, false⟩) ∧
    (sql_dsn = none → ping_sql sql_dsn sql_conn = ⟨true, false⟩) := by
  refine ⟨?_, ?_, ?_, ?_⟩
  · unfold ping_mongo
    cases mongo_conn <;> rfl
  · intro dsn hd he hs hc
    rw [hd]
    simp only [ping_sql, he, hs, hc]
    cases sql_conn <;> simp
  · intro dsn hd hdisj
    rw [hd]
    by_cases he : dsn.data.isEmpty = true
    · simp [ping_sql, he]
    · by_cases hs : startsWithList dsn.data "sqlite".data = true
      · simp [ping_sql, hs]
      · have hc : containsList dsn.data "postgres".data = false := by
          rcases hdisj with h | h | h
          · exact absurd h he
          · exact absurd h hs
          · exact h
        simp [ping_sql, he, hs, hc]
  · intro h
    rw [h]
    rfl

/-- Witness for the amended C9: a postgres DSN with the store down yields a
`False` probe that did attempt the round trip. -/
theorem health_probe_C9_amended_witness :
    ping_sql (some "postgresql://localhost/app") false = ⟨false, true⟩ :=
  (health_probe_C9_amended (some "postgresql://localhost/app") false false).2.1
    "postgresql://localhost/app" rfl (by decide) (by decide) (by decide)

/-- Claim C1: on the parallel path (both breakers allow, both probes up), a
write where exactly one store operation succeeds returns success to the
caller, and a write where both fail raises an error carrying both underlying
causes. -/
theorem dispatch_parallel_aggregation_C1 {ε : Type}
    (sql_circuit mongo_circuit : CircuitBreaker) (now : ℚ)
    (sql_parallel mongo_parallel : Except ε Unit)
    (sql_behavior mongo_behavior : Nat → Outcome ε Unit)
    (hA : (sql_circuit.allow_request now).1 = true)
    (hB : (mongo_circuit.allow_request now).1 = true) :
    (∀ e, sql_parallel = .ok () → mongo_parallel = .error e →
      (dispatch_escritura sql_circuit mongo_circuit now true true
        sql_parallel mongo_parallel sql_behavior mongo_behavior).result
        = .ok ()) ∧
    (∀ e, sql_parallel = .error e → mongo_parallel = .ok () →
      (dispatch_escritura sql_circuit mongo_circuit now true true
        sql_parallel mongo_parallel sql_behavior mongo_behavior).result
        = .ok ()) ∧
    (∀ e1 e2, sql_parallel = .error e1 → mongo_parallel = .error e2 →
      (dispatch_escritura sql_circuit mongo_circuit now true true
        sql_parallel mongo_parallel sql_behavior mongo_behavior).result
        = .error (.bothFailed e1 e2)) := by
  refine ⟨?_, ?_, ?_⟩
  · intro e h1 h2
    simp [dispatch_escritura, hA, hB, execute_parallel, h1, h2]
  · intro e h1 h2
    simp [dispatch_escritura, hA, hB, execute_parallel, h1, h2]
  · intro e1 e2 h1 h2
    simp [dispatch_escritura, hA, hB, execute_parallel, h1, h2]

/-- Witness for C1 on fresh breakers: primary succeeds, secondary fails,
and the dispatcher still returns success. -/
theorem dispatch_parallel_aggregation_C1_witness :
    (dispatch_escritura (ε := String)
      (CircuitBreaker.make CIRCUIT_FAILURE_THRESHOLD CIRCUIT_RECOVERY_TIMEOUT)
      (CircuitBreaker.make CIRCUIT_FAILURE_THRESHOLD CIRCUIT_RECOVERY_TIMEOUT)
      0 true true (.ok ()) (.error "mongo down")
      (fun _ => .success ()) (fun _ => .retryable "mongo down")).result
      = .ok () :=
  (dispatch_parallel_aggregation_C1 (ε := String)
    (CircuitBreaker.make CIRCUIT_FAILURE_THRESHOLD CIRCUIT_RECOVERY_TIMEOUT)
    (CircuitBreaker.make CIRCUIT_FAILURE_THRESHOLD CIRCUIT_RECOVERY_TIMEOUT)
    0 (.ok ()) (.error "mongo down")
    (fun _ => .success ()) (fun _ => .retryable "mongo down")
    rfl rfl).1 "mongo down" rfl rfl

/-- Claim C2: when both breakers allow the write but both probes answer
`false`, the dispatcher raises the both-unavailable error, neither store
adapter is invoked, and each breaker records exactly one failure. -/
theorem dispatch_ping_failfast_C2 {ε : Type}
    (sql_circuit mongo_circuit : CircuitBreaker) (now : ℚ)
    (sql_parallel mongo_parallel : Except ε Unit)
    (sql_behavior mongo_behavior : Nat → Outcome ε Unit)
    (hA : (sql_circuit.allow_request now).1 = true)
    (hB : (mongo_circuit.allow_request now).1 = true) :
    (dispatch_escritura sql_circuit mongo_circuit now false false
      sql_parallel mongo_parallel sql_behavior mongo_behavior).result
      = .error .bothUnavailablePing ∧
    (dispatch_escritura sql_circuit mongo_circuit now false false
      sql_parallel mongo_parallel sql_behavior mongo_behavior).sqlCalls = 0 ∧
    (dispatch_escritura sql_circuit mongo_circuit now false false
      sql_parallel mongo_parallel sql_behavior mongo_behavior).mongoCalls = 0 ∧
    (dispatch_escritura sql_circuit mongo_circuit now false false
      sql_parallel mongo_parallel sql_behavior
        mongo_behavior).sql_circuit.failureCount
      = sql_circuit.failureCount + 1 ∧
    (dispatch_escritura sql_circuit mongo_circuit now false false
      sql_parallel mongo_parallel sql_behavior
        mongo_behavior).mongo_circuit.failureCount
      = mongo_circuit.failureCount + 1 := by
  have hsql : ((sql_circuit.allow_request now).2.record_failure
      now).failureCount = sql_circuit.failureCount + 1 := by
    rw [record_failure_failureCount, allow_request_snd, state_failureCount]
  have hmongo : ((mongo_circuit.allow_request now).2.record_failure
      now).failureCount = mongo_circuit.failureCount + 1 := by
    rw [record_failure_failureCount, allow_request_snd, state_failureCount]
  refine ⟨?_, ?_, ?_, ?_, ?_⟩ <;>
    simp [dispatch_escritura, hA, hB, hsql, hmongo]

/-- Witness for C2 on fresh breakers at instant `0`. -/
theorem dispatch_ping_failfast_C2_witness :
    (dispatch_escritura (ε := String)
      (CircuitBreaker.make CIRCUIT_FAILURE_THRESHOLD CIRCUIT_RECOVERY_TIMEOUT)
      (CircuitBreaker.make CIRCUIT_FAILURE_THRESHOLD CIRCUIT_RECOVERY_TIMEOUT)
      0 false false (.ok ()) (.ok ())
      (fun _ => .success ()) (fun _ => .success ())).result
      = .error .bothUnavailablePing ∧
    (dispatch_escritura (ε := String)
      (CircuitBreaker.make CIRCUIT_FAILURE_THRESHOLD CIRCUIT_RECOVERY_TIMEOUT)
      (CircuitBreaker.make CIRCUIT_FAILURE_THRESHOLD CIRCUIT_RECOVERY_TIMEOUT)
      0 false false (.ok ()) (.ok ())
      (fun _ => .success ()) (fun _ => .success ())).sqlCalls = 0 :=
  ⟨(dispatch_ping_failfast_C2 (ε := String)
      (CircuitBreaker.make CIRCUIT_FAILURE_THRESHOLD CIRCUIT_RECOVERY_TIMEOUT)
    (CircuitBreaker.make CIRCUIT_FAILURE_THRESHOLD CIRCUIT_RECOVERY_TIMEOUT)
      0 (.ok ()) (.ok ())
      (fun _ => .success ()) (fun _ => .success ()) rfl rfl).1,
   (dispatch_ping_failfast_C2 (ε := String)
      (CircuitBreaker.make CIRCUIT_FAILURE_THRESHOLD CIRCUIT_RECOVERY_TIMEOUT)
    (CircuitBreaker.make CIRCUIT_FAILURE_THRESHOLD CIRCUIT_RECOVERY_TIMEOUT)
      0 (.ok ()) (.ok ())
      (fun _ => .success ()) (fun _ => .success ()) rfl rfl).2.1⟩

/-- Claim C3 counterexample: primary breaker closed, secondary breaker opened
by three failures.  The primary `get` succeeds with null (one call), yet the
secondary store — which holds the task — is never consulted (`mongoCalls =
0`), refuting the claim that after a null primary success "the secondary
store is then consulted". -/
theorem dual_get_read_policy_C3_counterexample :
    (dualGet (ε := String) (CircuitBreaker.make 3 30)
      (applyFailures (CircuitBreaker.make 3 30) [0, 0, 0]) 0
      (fun _ => .success none)
      (fun _ => .success (some ⟨1, "demo", none, .PENDIENTE⟩))).sqlCalls = 1 ∧
    (dualGet (ε := String) (CircuitBreaker.make 3 30)
      (applyFailures (CircuitBreaker.make 3 30) [0, 0, 0]) 0
      (fun _ => .success none)
      (fun _ => .success (some ⟨1, "demo", none, .PENDIENTE⟩))).value = none ∧
    (dualGet (ε := String) (CircuitBreaker.make 3 30)
      (applyFailures (CircuitBreaker.make 3 30) [0, 0, 0]) 0
      (fun _ => .success none)
      (fun _ => .success (some ⟨1, "demo", none, .PENDIENTE⟩))).mongoCalls
      = 0 := by
  have hmcb : applyFailures (CircuitBreaker.make 3 30) [0, 0, 0]
      = (⟨3, 30, .OPEN, 3, some 0⟩ : CircuitBreaker) := rfl
  have hallow : (((⟨3, 30, .OPEN, 3, some 0⟩ : CircuitBreaker).allow_request
      0).1) = false := by
    norm_num [CircuitBreaker.allow_request, CircuitBreaker.state]
  have hA : (((CircuitBreaker.make 3 30).allow_request 0).1) = true := rfl
  have hrun : (retry_with_backoff (ε := String)
      (fun _ => Outcome.success (none : Option Tarea)) RETRY_MAX_RETRIES
      RETRY_BASE_DELAY).result = .ok none := rfl
  have hcalls : (retry_with_backoff (ε := String)
      (fun _ => Outcome.success (none : Option Tarea)) RETRY_MAX_RETRIES
      RETRY_BASE_DELAY).calls = 1 := rfl
  refine ⟨?_, ?_, ?_⟩ <;>
    simp [dualGet, hmcb, hallow, hA, hrun, hcalls]

/-- Claim C3 (amended): `get` follows the read policy — a non-null primary
success is returned without touching the secondary; a null primary success
records a primary breaker success and the secondary store is consulted
*provided its breaker admits the request*; when both breakers refuse, `get`
returns null with no store invoked. -/
theorem dual_get_read_policy_C3_amended {ε : Type}
    (sql_circuit mongo_circuit : CircuitBreaker) (now : ℚ)
    (sql_behavior mongo_behavior : Nat → Outcome ε (Option Tarea)) :
    (∀ t, (sql_circuit.allow_request now).1 = true →
      (retry_with_backoff sql_behavior RETRY_MAX_RETRIES
        RETRY_BASE_DELAY).result = .ok (some t) →
      (dualGet sql_circuit mongo_circuit now sql_behavior
        mongo_behavior).value = some t ∧
      (dualGet sql_circuit mongo_circuit now sql_behavior
        mongo_behavior).mongoCalls = 0) ∧
    ((sql_circuit.allow_request now).1 = true →
      (retry_with_backoff sql_behavior RETRY_MAX_RETRIES
        RETRY_BASE_DELAY).result = .ok none →
      (dualGet sql_circuit mongo_circuit now sql_behavior
        mongo_behavior).sql_circuit
        = ((sql_circuit.allow_request now).2).record_success ∧
      ((mongo_circuit.allow_request now).1 = true →
        1 ≤ (dualGet sql_circuit mongo_circuit now sql_behavior
          mongo_behavior).mongoCalls)) ∧
    ((sql_circuit.allow_request now).1 = false →
      (mongo_circuit.allow_request now).1 = false →
      (dualGet sql_circuit mongo_circuit now sql_behavior
        mongo_behavior).value = none ∧
      (dualGet sql_circuit mongo_circuit now sql_behavior
        mongo_behavior).sqlCalls = 0 ∧
      (dualGet sql_circuit mongo_circuit now sql_behavior
        mongo_behavior).mongoCalls = 0) := by
  refine ⟨?_, ?_, ?_⟩
  · intro t hA hR
    constructor <;> simp [dualGet, hA, hR]
  · intro hA hR
    constructor
    · by_cases hB : (mongo_circuit.allow_request now).1 = true
      · rcases hr2 : (retry_with_backoff mongo_behavior RETRY_MAX_RETRIES
            RETRY_BASE_DELAY).result with t2 | e2 <;>
          simp [dualGet, hA, hR, hB, hr2]
      · have hB' : (mongo_circuit.allow_request now).1 = false := by
          simpa using hB
        simp [dualGet, hA, hR, hB']
    · intro hB
      rcases hr2 : (retry_with_backoff mongo_behavior RETRY_MAX_RETRIES
          RETRY_BASE_DELAY).result with t2 | e2 <;>
        simp [dualGet, hA, hR, hB, hr2] <;>
        exact retry_attempts_calls_pos mongo_behavior RETRY_MAX_RETRIES
          RETRY_BASE_DELAY RETRY_MAX_RETRIES 1
  · intro hA hB
    refine ⟨?_, ?_, ?_⟩ <;> simp [dualGet, hA, hB]

/-- Witness for the amended C3: fresh breakers, primary holding no record,
secondary holding the task: the null primary success leads to a secondary
consultation. -/
theorem dual_get_read_policy_C3_amended_witness :
    (dualGet (ε := String) (CircuitBreaker.make 3 30)
      (CircuitBreaker.make 3 30) 0 (fun _ => .success none)
      (fun _ => .success (some ⟨2, "otra", none, .PENDIENTE⟩))).sql_circuit
      = (((CircuitBreaker.make 3 30).allow_request 0).2).record_success ∧
    1 ≤ (dualGet (ε := String) (CircuitBreaker.make 3 30)
      (CircuitBreaker.make 3 30) 0 (fun _ => .success none)
      (fun _ => .success (some ⟨2, "otra", none, .PENDIENTE⟩))).mongoCalls := by
  have h := (dual_get_read_policy_C3_amended (ε := String)
    (CircuitBreaker.make 3 30) (CircuitBreaker.make 3 30) 0
    (fun _ => .success none)
    (fun _ => .success (some ⟨2, "otra", none, .PENDIENTE⟩))).2.1 rfl rfl
  exact ⟨h.1, h.2 rfl⟩

/-- Claim C10: whatever the two adapters do — including raising on every
attempt — `get` yields a value; when no store call ever succeeds with a
non-null task, that value is null, so a total read outage is
indistinguishable at the `get` interface from the task being absent. -/
theorem dual_get_total_C10 {ε : Type}
    (sql_circuit mongo_circuit : CircuitBreaker) (now : ℚ)
    (sql_behavior mongo_behavior : Nat → Outcome ε (Option Tarea))
    (hsql : ∀ k t, sql_behavior k = .success t → t = none)
    (hmongo : ∀ k t, mongo_behavior k = .success t → t = none) :
    (dualGet sql_circuit mongo_circuit now sql_behavior mongo_behavior).value
      = none := by
  by_cases hA : (sql_circuit.allow_request now).1 = true
  · rcases hr : (retry_with_backoff sql_behavior RETRY_MAX_RETRIES
        RETRY_BASE_DELAY).result with t | e
    · obtain ⟨k, hk⟩ := retry_attempts_ok_of_success sql_behavior
        RETRY_MAX_RETRIES RETRY_BASE_DELAY RETRY_MAX_RETRIES 1 t hr
      have ht : t = none := hsql k t hk
      subst ht
      by_cases hB : (mongo_circuit.allow_request now).1 = true
      · rcases hr2 : (retry_with_backoff mongo_behavior RETRY_MAX_RETRIES
            RETRY_BASE_DELAY).result with t2 | e2
        · obtain ⟨k2, hk2⟩ := retry_attempts_ok_of_success mongo_behavior
            RETRY_MAX_RETRIES RETRY_BASE_DELAY RETRY_MAX_RETRIES 1 t2 hr2
          have ht2 : t2 = none := hmongo k2 t2 hk2
          subst ht2
          simp [dualGet, hA, hr, hB, hr2]
        · simp [dualGet, hA, hr, hB, hr2]
      · have hB' : (mongo_circuit.allow_request now).1 = false := by
          simpa using hB
        simp [dualGet, hA, hr, hB']
    · by_cases hB : (mongo_circuit.allow_request now).1 = true
      · rcases hr2 : (retry_with_backoff mongo_behavior RETRY_MAX_RETRIES
            RETRY_BASE_DELAY).result with t2 | e2
        · obtain ⟨k2, hk2⟩ := retry_attempts_ok_of_success mongo_behavior
            RETRY_MAX_RETRIES RETRY_BASE_DELAY RETRY_MAX_RETRIES 1 t2 hr2
          have ht2 : t2 = none := hmongo k2 t2 hk2
          subst ht2
          simp [dualGet, hA, hr, hB, hr2]
        · simp [dualGet, hA, hr, hB, hr2]
      · have hB' : (mongo_circuit.allow_request now).1 = false := by
          simpa using hB
        simp [dualGet, hA, hr, hB']
  · have hA' : (sql_circuit.allow_request now).1 = false := by simpa using hA
    by_cases hB : (mongo_circuit.allow_request now).1 = true
    · rcases hr2 : (retry_with_backoff mongo_behavior RETRY_MAX_RETRIES
          RETRY_BASE_DELAY).result with t2 | e2
      · obtain ⟨k2, hk2⟩ := retry_attempts_ok_of_success mongo_behavior
          RETRY_MAX_RETRIES RETRY_BASE_DELAY RETRY_MAX_RETRIES 1 t2 hr2
        have ht2 : t2 = none := hmongo k2 t2 hk2
        subst ht2
        simp [dualGet, hA', hB, hr2]
      · simp [dualGet, hA', hB, hr2]
    · have hB' : (mongo_circuit.allow_request now).1 = false := by simpa using hB
      simp [dualGet, hA', hB']

/-- Witness for C10: both stores raise a non-retryable error on every
attempt, and `get` still answers null. -/
theorem dual_get_total_C10_witness :
    (dualGet (ε := String) (CircuitBreaker.make 3 30)
      (CircuitBreaker.make 3 30) 0 (fun _ => .fatal "sql down")
      (fun _ => .fatal "mongo down")).value = none :=
  dual_get_total_C10 (CircuitBreaker.make 3 30) (CircuitBreaker.make 3 30) 0
    (fun _ => .fatal "sql down") (fun _ => .fatal "mongo down")
    (fun _ _ h => nomatch h) (fun _ _ h => nomatch h)
